import Mathlib

/-!
Verification of the dataset logging service of the fly-vr repository
(common/logger.py): a shallow embedding of the HDF5-backed log server,
its event types and its processing loop, together with proofs about the
behaviours claimed in the specification.

Modelling choices, stated once:
* HDF5 datasets written through this module are rank-2 numeric arrays;
  a dataset is a list of rows (each a list of integers) plus a column
  count, a dtype tag and a growth bound for the leading axis.
* The HDF5 file is an association list from path strings to stored
  objects.  Leaf objects written by the recursive mapping saver are
  modelled by dedicated constructors.
* Exceptions raised while an event is processed are modelled by
  returning the state reached at the point of the raise together with
  a `some error` flag; mutations performed before the raise persist,
  exactly as in the Python code.
* Machine floats that can appear as mapping values are modelled by
  rationals; no claim depends on float arithmetic.
-/

/-- UTF-8 encoding of one character as byte values. -/
def utf8Char (c : Char) : List Nat :=
  let n := c.toNat
  if n < 128 then [n]
  else if n < 2048 then [192 + n / 64, 128 + n % 64]
  else if n < 65536 then [224 + n / 4096, 128 + (n / 64) % 64, 128 + n % 64]
  else [240 + n / 262144, 128 + (n / 4096) % 64, 128 + (n / 64) % 64, 128 + n % 64]

/-- UTF-8 encoding of a string as a list of byte values. -/
def utf8 (s : String) : List Nat := s.data.flatMap utf8Char

/-- Growth bound of the leading axis of a dataset: maxshape along axis 0.
none in the Python maxshape means unlimited; a dataset created without a
maxshape is not resizable at all. -/
inductive MaxShape where
  | fixed : MaxShape
  | unlimited : MaxShape
  | upTo (m : Nat) : MaxShape
deriving DecidableEq, Repr

/-- A rank-2 HDF5 dataset: a column count, the rows, the growth bound of
the leading axis and the dtype tag. -/
structure Dataset where
  ncols : Nat
  rows : List (List Int)
  maxRows : MaxShape
  dtype : String
deriving DecidableEq, Repr

/-- Errors raised during event processing (Python exceptions). -/
inductive LogErr where
  | badMessage : LogErr
  | notImplErr : LogErr
  | keyError (p : String) : LogErr
  | shapeMismatch : LogErr
  | cannotSave (kind : String) : LogErr
  | resizeError : LogErr
  | nameExists (p : String) : LogErr
  | conflict (p : String) : LogErr
  | broadcastError : LogErr
deriving DecidableEq, Repr

/-- An element of the array stored for a Python list value: either a
number kept as-is or the UTF-8 bytes of a string element. -/
inductive EncItem where
  | num (n : Int) : EncItem
  | bytes (b : List Nat) : EncItem
deriving DecidableEq, Repr

/-- An object stored in the HDF5 file under a path. -/
inductive H5Obj where
  | dset (d : Dataset) : H5Obj
  | leafStr (s : String) : H5Obj
  | leafBytes (b : List Nat) : H5Obj
  | leafInt (n : Int) : H5Obj
  | leafFloat (q : Rat) : H5Obj
  | leafArr (items : List EncItem) : H5Obj
  | leafNp (a : List (List Int)) : H5Obj
deriving DecidableEq, Repr

/-- The HDF5 file: an association list from paths to stored objects. -/
abbrev H5File := List (String × H5Obj)

/-- Look up the object stored under a path. -/
def H5File.get (f : H5File) (p : String) : Option H5Obj :=
  match f with
  | [] => none
  | (q, o) :: rest => if q = p then some o else H5File.get rest p

/-- Store an object under a path, replacing any existing binding. -/
def H5File.set (f : H5File) (p : String) (o : H5Obj) : H5File :=
  match f with
  | [] => [(p, o)]
  | (q, x) :: rest => if q = p then (p, o) :: rest else (q, x) :: H5File.set rest p o

/-- Bind a new name to an object, as the h5py item assignment does:
raises if the name already exists. -/
def H5File.setNew (f : H5File) (p : String) (o : H5Obj) : Except LogErr H5File :=
  match f.get p with
  | some _ => .error (.nameExists p)
  | none => .ok (f.set p o)

/-- Parameters of a dataset creation call, the subset of the h5py
create arguments the logger module uses: name, shape (rows, columns),
dtype, maxshape along axis 0. -/
structure CreateParams where
  name : String
  shape0 : Nat
  ncols : Nat
  dtype : String
  maxRows : MaxShape
deriving DecidableEq, Repr

/-- The dataset freshly created from creation parameters: shape0 rows of
fill value 0. -/
def CreateParams.newDataset (p : CreateParams) : Dataset :=
  ⟨p.ncols, List.replicate p.shape0 (List.replicate p.ncols 0), p.maxRows, p.dtype⟩

/-- h5py require_dataset: create the dataset when the name is free;
when a dataset already exists there, succeed without change when shape
and dtype conform, raise otherwise. -/
def require_dataset (f : H5File) (p : CreateParams) : Except LogErr H5File :=
  match f.get p.name with
  | none => .ok (f.set p.name (.dset p.newDataset))
  | some (.dset d) =>
      if d.rows.length = p.shape0 ∧ d.ncols = p.ncols ∧ d.dtype = p.dtype then .ok f
      else .error (.conflict p.name)
  | some _ => .error (.conflict p.name)

/-- h5py resize of the leading axis: shrinking truncates rows, growing
pads with the fill value 0; raises when the growth bound forbids the new
size. -/
def Dataset.resize (d : Dataset) (newsize : Nat) : Except LogErr Dataset :=
  match d.maxRows with
  | .fixed => .error .resizeError
  | .unlimited =>
      .ok { d with rows := d.rows.take newsize
              ++ List.replicate (newsize - d.rows.length) (List.replicate d.ncols 0) }
  | .upTo m =>
      if newsize ≤ m then
        .ok { d with rows := d.rows.take newsize
                ++ List.replicate (newsize - d.rows.length) (List.replicate d.ncols 0) }
      else .error .resizeError

/-- An element of a Python list value inside a logged mapping. -/
inductive ListItem where
  | strItem (s : String) : ListItem
  | numItem (n : Int) : ListItem
deriving DecidableEq, Repr

/-- A Python value inside a logged mapping, one constructor per kind the
saver distinguishes. vInt is a plain Python int, vNpInt is np.int64. -/
inductive PyVal where
  | vNone : PyVal
  | vBool (b : Bool) : PyVal
  | vInt (n : Int) : PyVal
  | vNpInt (n : Int) : PyVal
  | vFloat (q : Rat) : PyVal
  | vStr (s : String) : PyVal
  | vBytes (b : List Nat) : PyVal
  | vList (items : List ListItem) : PyVal
  | vArr (a : List (List Int)) : PyVal
  | vDict (entries : List (String × PyVal)) : PyVal

/-- The per-element encoding the saver applies inside a list value:
strings become UTF-8 bytes, other elements are kept. -/
def encodeListItem : ListItem → EncItem
  | .strItem s => .bytes (utf8 s)
  | .numItem n => .num n

mutual

/-- recursively_save_dict_contents_to_group from common/logger.py: walk
the mapping entries in order, writing one leaf per value under path ++ key
and recursing into sub-mappings with the path extended by key and a slash.
Returns the file as mutated up to the point of any raise. -/
def recursively_save_dict_contents_to_group (f : H5File) (path : String) :
    List (String × PyVal) → H5File × Option LogErr
  | [] => (f, none)
  | (key, item) :: rest =>
      match saveDictItem f path key item with
      | (f1, none) => recursively_save_dict_contents_to_group f1 path rest
      | (f1, some e) => (f1, some e)

/-- One mapping entry, following the branch order of the source: None,
bool, list, str, the accepted scalar and array kinds, nested dict, and a
raise naming any other kind.  A plain Python int matches no accepted
branch and raises. -/
def saveDictItem (f : H5File) (path key : String) : PyVal → H5File × Option LogErr
  | .vNone =>
      match f.setNew (path ++ key) (.leafStr ("")) with
      | .ok f1 => (f1, none)
      | .error e => (f, some e)
  | .vBool b =>
      match f.setNew (path ++ key) (.leafInt (if b then 1 else 0)) with
      | .ok f1 => (f1, none)
      | .error e => (f, some e)
  | .vList items =>
      match f.setNew (path ++ key) (.leafArr (items.map encodeListItem)) with
      | .ok f1 => (f1, none)
      | .error e => (f, some e)
  | .vStr s =>
      match f.setNew (path ++ key) (.leafBytes (utf8 s)) with
      | .ok f1 => (f1, none)
      | .error e => (f, some e)
  | .vNpInt n =>
      match f.setNew (path ++ key) (.leafInt n) with
      | .ok f1 => (f1, none)
      | .error e => (f, some e)
  | .vFloat q =>
      match f.setNew (path ++ key) (.leafFloat q) with
      | .ok f1 => (f1, none)
      | .error e => (f, some e)
  | .vBytes b =>
      match f.setNew (path ++ key) (.leafBytes b) with
      | .ok f1 => (f1, none)
      | .error e => (f, some e)
  | .vArr a =>
      match f.setNew (path ++ key) (.leafNp a) with
      | .ok f1 => (f1, none)
      | .error e => (f, some e)
  | .vDict entries =>
      recursively_save_dict_contents_to_group f (path ++ key ++ ("/")) entries
  | .vInt _ => (f, some (.cannotSave ("int")))

end

/-- A numpy array payload as handed to the logger: one- or
two-dimensional. -/
inductive NpArray where
  | oneD (xs : List Int) : NpArray
  | twoD (rows : List (List Int)) : NpArray
deriving DecidableEq, Repr

/-- np.atleast_2d: a 1-D array of length n becomes the single row of a
(1, n) array; a 2-D array is unchanged. -/
def atleast_2d : NpArray → List (List Int)
  | .oneD xs => [xs]
  | .twoD rows => rows

/-- The column count numpy reports for a rectangular 2-D array. -/
def arrCols (rows : List (List Int)) : Nat :=
  (rows.head?.map List.length).getD 0

/-- The object a caller passes to DatasetLogger.log: a numpy array or a
mapping. -/
inductive Payload where
  | arr (a : NpArray) : Payload
  | dict (entries : List (String × PyVal)) : Payload

/-- The object stored inside a write event after construction: arrays
are already promoted to 2-D. -/
inductive WriteObj where
  | arr (rows : List (List Int)) : WriteObj
  | dict (entries : List (String × PyVal)) : WriteObj

/-- DatasetWriteEvent: target dataset name, the stored object and the
append flag. -/
structure DatasetWriteEvent where
  dataset_name : String
  obj : WriteObj
  append : Bool

/-- The DatasetWriteEvent constructor: numpy arrays are promoted with
np.atleast_2d, other objects are stored unchanged. -/
def mkDatasetWriteEvent (dataset_name : String) (o : Payload) (append : Bool) :
    DatasetWriteEvent :=
  match o with
  | .arr a => ⟨dataset_name, .arr (atleast_2d a), append⟩
  | .dict entries => ⟨dataset_name, .dict entries, append⟩

/-- The write-cursor table: dataset path to next append offset. -/
abbrev Cursors := List (String × Nat)

/-- Look up the cursor stored for a path. -/
def lookupCursor (c : Cursors) (p : String) : Option Nat :=
  match c with
  | [] => none
  | (q, v) :: rest => if q = p then some v else lookupCursor rest p

/-- Store a cursor for a path, replacing any existing entry. -/
def setCursor (c : Cursors) (p : String) (v : Nat) : Cursors :=
  match c with
  | [] => [(p, v)]
  | (q, w) :: rest => if q = p then (p, v) :: rest else (q, w) :: setCursor rest p v

/-- The state owned by the DatasetLogServer while its file is open: the
file contents, the write-cursor table, a count of flush calls performed
and whether the file has been closed. -/
structure ServerState where
  file : H5File
  dataset_write_pos : Cursors
  flushes : Nat
  closed : Bool
deriving Repr

/-- DatasetCreateEvent: carries the creation parameters verbatim. -/
structure DatasetCreateEvent where
  params : CreateParams
deriving DecidableEq, Repr

/-- DatasetCreateEvent.process: pass the stored parameters to
require_dataset on the open file.  No flush is performed. -/
def DatasetCreateEvent.process (e : DatasetCreateEvent) (s : ServerState) :
    ServerState × Option LogErr :=
  match require_dataset s.file e.params with
  | .ok f1 => ({ s with file := f1 }, none)
  | .error er => (s, some er)

/-- The append branch of DatasetWriteEvent.process: look up the cursor,
creating it at 0 when absent; resize the leading axis to cursor plus the
payload row count unconditionally; write the payload rows from the
cursor to the end; store the new leading extent as the cursor; flush. -/
def appendWrite (s : ServerState) (name : String) (d : Dataset)
    (rows : List (List Int)) : ServerState × Option LogErr :=
  let (cursors1, write_pos) :=
    match lookupCursor s.dataset_write_pos name with
    | some w => (s.dataset_write_pos, w)
    | none => (setCursor s.dataset_write_pos name 0, 0)
  let newsize := write_pos + rows.length
  match d.resize newsize with
  | .error er => ({ s with dataset_write_pos := cursors1 }, some er)
  | .ok d1 =>
      if rows.all (fun r => r.length = d.ncols) then
        let d2 := { d1 with rows := d1.rows.take write_pos ++ rows }
        ({ s with file := s.file.set name (.dset d2),
                  dataset_write_pos := setCursor cursors1 name d2.rows.length,
                  flushes := s.flushes + 1 }, none)
      else
        ({ s with file := s.file.set name (.dset d1),
                  dataset_write_pos := cursors1 }, some .broadcastError)

/-- The overwrite branch of DatasetWriteEvent.process: the payload shape
must equal the dataset shape exactly, else raise; on success replace the
contents in place and flush. -/
def overwriteWrite (s : ServerState) (name : String) (d : Dataset)
    (rows : List (List Int)) : ServerState × Option LogErr :=
  if d.rows.length = rows.length ∧ d.ncols = arrCols rows then
    ({ s with file := s.file.set name (.dset { d with rows := rows }),
              flushes := s.flushes + 1 }, none)
  else
    (s, some .shapeMismatch)

/-- DatasetWriteEvent.process: mappings go through the recursive saver;
arrays require an existing dataset, then dispatch on the append flag;
the file is flushed after a fully successful write.  A write whose
target exists but is a leaf rather than a resizable dataset fails at the
shape check or at the resize call. -/
def DatasetWriteEvent.process (e : DatasetWriteEvent) (s : ServerState) :
    ServerState × Option LogErr :=
  match e.obj with
  | .dict entries =>
      match recursively_save_dict_contents_to_group s.file e.dataset_name entries with
      | (f1, none) => ({ s with file := f1, flushes := s.flushes + 1 }, none)
      | (f1, some er) => ({ s with file := f1 }, some er)
  | .arr rows =>
      match s.file.get e.dataset_name with
      | none => (s, some (.keyError e.dataset_name))
      | some (.dset d) =>
          if e.append then appendWrite s e.dataset_name d rows
          else overwriteWrite s e.dataset_name d rows
      | some _ =>
          if e.append then
            let cursors1 :=
              match lookupCursor s.dataset_write_pos e.dataset_name with
              | some _ => s.dataset_write_pos
              | none => setCursor s.dataset_write_pos e.dataset_name 0
            ({ s with dataset_write_pos := cursors1 }, some .resizeError)
          else (s, some .shapeMismatch)

/-- A message on the server queue: the shutdown sentinel, one of the two
event variants, a bare base-class DatasetLogEvent (whose process call
raises), or any other object (rejected as a bad message). -/
inductive Msg where
  | sentinel : Msg
  | createEvt (e : DatasetCreateEvent) : Msg
  | writeEvt (e : DatasetWriteEvent) : Msg
  | baseEvt : Msg
  | badObj : Msg

/-- The state right after _initialize_storage: freshly truncated file,
empty write-cursor table, nothing flushed, not closed. -/
def initState : ServerState := ⟨[], [], 0, false⟩

/-- _finalize_storage: flush and close the file. -/
def finalize_storage (s : ServerState) : ServerState :=
  { s with flushes := s.flushes + 1, closed := true }

/-- The state after the server handles one message, whether or not the
handling raised: events return their (possibly partial) mutation, the
sentinel triggers finalization, and unknown messages change nothing. -/
def stepState (s : ServerState) : Msg → ServerState
  | .sentinel => finalize_storage s
  | .createEvt e => (e.process s).1
  | .writeEvt e => (e.process s).1
  | .baseEvt => s
  | .badObj => s

/-- The outcome of the server loop on a finite message list. -/
inductive LoopOutcome where
  | finished (s : ServerState) : LoopOutcome
  | crashed (s : ServerState) (e : LogErr) : LoopOutcome
  | pending (s : ServerState) : LoopOutcome

/-- The message loop of DatasetLogServer._thread_main: dequeue; a None
sentinel ends the loop and runs finalization; a DatasetLogEvent is
processed, a raise during processing aborting the loop with no
finalization; any other message raises ValueError and aborts the loop.
An exhausted list models a loop still blocked on the queue. -/
def threadLoop : List Msg → ServerState → LoopOutcome
  | [], s => .pending s
  | m :: rest, s =>
      match m with
      | .sentinel => .finished (finalize_storage s)
      | .createEvt e =>
          match e.process s with
          | (s1, none) => threadLoop rest s1
          | (s1, some er) => .crashed s1 er
      | .writeEvt e =>
          match e.process s with
          | (s1, none) => threadLoop rest s1
          | (s1, some er) => .crashed s1 er
      | .baseEvt => .crashed s .notImplErr
      | .badObj => .crashed s .badMessage

/-- Process a sequence of 2-D append writes to one dataset, stopping at
the first raise. -/
def processWrites (p : String) : List (List (List Int)) → ServerState →
    ServerState × Option LogErr
  | [], s => (s, none)
  | a :: rest, s =>
      match (mkDatasetWriteEvent p (.arr (.twoD a)) true).process s with
      | (s1, none) => processWrites p rest s1
      | (s1, some er) => (s1, some er)

/-- Leading-dimension extent of the dataset stored at a path, 0 when no
dataset is there. -/
def leadExtent (s : ServerState) (p : String) : Nat :=
  match s.file.get p with
  | some (.dset d) => d.rows.length
  | _ => 0

theorem H5File.get_set_self (f : H5File) (p : String) (o : H5Obj) :
    (f.set p o).get p = some o := by
  induction f with
  | nil => simp [H5File.set, H5File.get]
  | cons hd tl ih =>
      obtain ⟨q, x⟩ := hd
      by_cases h : q = p <;> simp [H5File.set, H5File.get, h, ih]

theorem H5File.get_set_ne (f : H5File) (p q : String) (o : H5Obj) (h : q ≠ p) :
    (f.set p o).get q = f.get q := by
  have hpq : ¬ p = q := fun hh => h hh.symm
  induction f with
  | nil => simp [H5File.set, H5File.get, hpq]
  | cons hd tl ih =>
      obtain ⟨r, x⟩ := hd
      by_cases hr : r = p
      · subst hr
        simp [H5File.set, H5File.get, hpq]
      · simp [H5File.set, H5File.get, hr, ih]

theorem lookupCursor_setCursor_self (c : Cursors) (p : String) (v : Nat) :
    lookupCursor (setCursor c p v) p = some v := by
  induction c with
  | nil => simp [setCursor, lookupCursor]
  | cons hd tl ih =>
      obtain ⟨q, w⟩ := hd
      by_cases h : q = p <;> simp [setCursor, lookupCursor, h, ih]

theorem lookupCursor_setCursor_ne (c : Cursors) (p q : String) (v : Nat) (h : q ≠ p) :
    lookupCursor (setCursor c p v) q = lookupCursor c q := by
  have hpq : ¬ p = q := fun hh => h hh.symm
  induction c with
  | nil => simp [setCursor, lookupCursor, hpq]
  | cons hd tl ih =>
      obtain ⟨r, w⟩ := hd
      by_cases hr : r = p
      · subst hr
        simp [setCursor, lookupCursor, hpq]
      · simp [setCursor, lookupCursor, hr, ih]

theorem setCursor_setCursor (c : Cursors) (p : String) (v w : Nat) :
    setCursor (setCursor c p v) p w = setCursor c p w := by
  induction c with
  | nil => simp [setCursor]
  | cons hd tl ih =>
      obtain ⟨q, u⟩ := hd
      by_cases h : q = p <;> simp [setCursor, h, ih]

theorem countP_set_of_get_none (f : H5File) (p : String) (o : H5Obj)
    (h : f.get p = none) :
    (f.set p o).countP (fun x => x.1 = p) = 1 := by
  induction f with
  | nil => simp [H5File.set]
  | cons hd tl ih =>
      obtain ⟨q, x⟩ := hd
      by_cases hq : q = p
      · simp [H5File.get, hq] at h
      · simp [H5File.get, hq] at h
        simp [H5File.set, hq, ih h]

/-- On success, a resize yields exactly the requested leading extent and
changes nothing else about the dataset descriptor. -/
theorem Dataset.resize_ok (d : Dataset) (newsize : Nat) (d1 : Dataset)
    (h : d.resize newsize = .ok d1) :
    d1.rows.length = newsize ∧ d1.ncols = d.ncols ∧ d1.maxRows = d.maxRows ∧
      d1.dtype = d.dtype := by
  rcases hm : d.maxRows with _ | _ | m
  · simp [Dataset.resize, hm] at h
  · simp [Dataset.resize, hm] at h
    subst h
    refine ⟨?_, rfl, rfl, rfl⟩
    simp [List.length_take]
    omega
  · by_cases hle : newsize ≤ m
    · simp [Dataset.resize, hm, hle] at h
      subst h
      refine ⟨?_, rfl, rfl, rfl⟩
      simp [List.length_take]
      omega
    · simp [Dataset.resize, hm, hle] at h

/-- The general shape of a successful append: with a stored cursor w, an
unlimited growth bound and well-formed row widths, the append succeeds,
stores cursor w plus the payload row count, bumps the flush count, and
leaves a dataset of leading extent w plus the payload row count whose
rows from w onward are exactly the payload. -/
theorem appendWrite_ok (s : ServerState) (name : String) (d : Dataset)
    (rows : List (List Int)) (w : Nat)
    (hc : lookupCursor s.dataset_write_pos name = some w)
    (hmax : d.maxRows = .unlimited)
    (hw : ∀ r ∈ rows, r.length = d.ncols) :
    ∃ d2 : Dataset,
      appendWrite s name d rows =
        ({ s with file := s.file.set name (.dset d2),
                  dataset_write_pos := setCursor s.dataset_write_pos name (w + rows.length),
                  flushes := s.flushes + 1 }, none) ∧
      d2.rows.length = w + rows.length ∧ d2.ncols = d.ncols ∧
      d2.maxRows = d.maxRows ∧ d2.dtype = d.dtype ∧ d2.rows.drop w = rows := by
  have hall : rows.all (fun r => decide (r.length = d.ncols)) = true := by
    rw [List.all_eq_true]
    intro r hr
    exact decide_eq_true (hw r hr)
  refine ⟨⟨d.ncols,
      (d.rows.take (w + rows.length)
        ++ List.replicate ((w + rows.length) - d.rows.length)
            (List.replicate d.ncols 0)).take w ++ rows,
      d.maxRows, d.dtype⟩, ?_, ?_, rfl, rfl, rfl, ?_⟩
  · have hlen2 : ((d.rows.take (w + rows.length)
        ++ List.replicate ((w + rows.length) - d.rows.length)
            (List.replicate d.ncols 0)).take w ++ rows).length = w + rows.length := by
      simp [List.length_take]
      omega
    simp only [appendWrite, hc, Dataset.resize, hmax, hall, if_true]
    rw [hlen2]
  · simp [List.length_take]
    omega
  · have hw2 : ((d.rows.take (w + rows.length)
        ++ List.replicate ((w + rows.length) - d.rows.length)
            (List.replicate d.ncols 0)).take w).length = w := by
      simp [List.length_take]
      omega
    exact List.drop_left' hw2

/-- Appending when the stored cursor equals the current leading extent
(the situation after any previous successful append) concatenates the
payload rows onto the dataset. -/
theorem appendWrite_step (s : ServerState) (name : String) (d : Dataset)
    (rows : List (List Int))
    (hc : lookupCursor s.dataset_write_pos name = some d.rows.length)
    (hmax : d.maxRows = .unlimited)
    (hw : ∀ r ∈ rows, r.length = d.ncols) :
    appendWrite s name d rows =
      ({ s with file := s.file.set name (.dset { d with rows := d.rows ++ rows }),
                dataset_write_pos := setCursor s.dataset_write_pos name
                  (d.rows.length + rows.length),
                flushes := s.flushes + 1 }, none) := by
  have hall : rows.all (fun r => decide (r.length = d.ncols)) = true := by
    rw [List.all_eq_true]
    intro r hr
    exact decide_eq_true (hw r hr)
  have h1 : d.rows.take (d.rows.length + rows.length) = d.rows :=
    List.take_of_length_le (by omega)
  have h2 : (d.rows.length + rows.length) - d.rows.length = rows.length := by omega
  simp only [appendWrite, hc, Dataset.resize, hmax, hall, if_true, h1, h2,
    List.take_left, List.length_append]

/-- The first append to a path: the cursor entry is created, the write
position is 0, and the dataset contents are replaced by the payload
regardless of the initial extent. -/
theorem appendWrite_first (s : ServerState) (name : String) (d : Dataset)
    (rows : List (List Int))
    (hc : lookupCursor s.dataset_write_pos name = none)
    (hmax : d.maxRows = .unlimited)
    (hw : ∀ r ∈ rows, r.length = d.ncols) :
    appendWrite s name d rows =
      ({ s with file := s.file.set name (.dset { d with rows := rows }),
                dataset_write_pos := setCursor s.dataset_write_pos name rows.length,
                flushes := s.flushes + 1 }, none) := by
  have hall : rows.all (fun r => decide (r.length = d.ncols)) = true := by
    rw [List.all_eq_true]
    intro r hr
    exact decide_eq_true (hw r hr)
  simp only [appendWrite, hc, Dataset.resize, hmax, hall, if_true, Nat.zero_add,
    List.take_zero, List.nil_append, setCursor_setCursor]

/-- Dispatch of an array write event on an existing dataset. -/
theorem write_process_arr (s : ServerState) (p : String) (d : Dataset)
    (rows : List (List Int)) (ap : Bool)
    (hf : s.file.get p = some (.dset d)) :
    (mkDatasetWriteEvent p (.arr (.twoD rows)) ap).process s =
      if ap then appendWrite s p d rows else overwriteWrite s p d rows := by
  cases ap <;>
    simp [mkDatasetWriteEvent, atleast_2d, DatasetWriteEvent.process, hf]

/-- In a concatenation of blocks, block i occupies the slice starting at
the sum of the lengths of the preceding blocks. -/
theorem flatten_slice {α : Type} (ls : List (List α)) :
    ∀ (i : Nat) (h : i < ls.length),
      ((ls.flatten.drop (((ls.take i).map List.length).sum)).take
          (ls.get ⟨i, h⟩).length) = ls.get ⟨i, h⟩ := by
  induction ls with
  | nil =>
      intro i h
      exact absurd h (by simp)
  | cons a tl ih =>
      intro i h
      cases i with
      | zero => simp [List.flatten_cons, List.take_left]
      | succ j =>
          have hj : j < tl.length := by
            simpa using h
          have := ih j hj
          simp only [List.flatten_cons, List.take_succ_cons, List.map_cons,
            List.sum_cons, List.drop_append, List.get_cons_succ]
          exact this

/-- Invariant run of append writes: when the stored cursor equals the
current extent, a sequence of well-formed append writes concatenates all
payloads in order and leaves the cursor at the final extent. -/
theorem processWrites_inv (p dt : String) (c : Nat)
    (payloads : List (List (List Int))) :
    ∀ (s : ServerState) (rows0 : List (List Int)),
      s.file.get p = some (.dset ⟨c, rows0, .unlimited, dt⟩) →
      lookupCursor s.dataset_write_pos p = some rows0.length →
      (∀ x ∈ payloads, ∀ r ∈ x, r.length = c) →
      ∃ s1, processWrites p payloads s = (s1, none) ∧
        s1.file.get p = some (.dset ⟨c, rows0 ++ payloads.flatten, .unlimited, dt⟩) ∧
        lookupCursor s1.dataset_write_pos p = some (rows0 ++ payloads.flatten).length := by
  induction payloads with
  | nil =>
      intro s rows0 hf hc hw
      exact ⟨s, rfl, by simpa using hf, by simpa using hc⟩
  | cons a rest ih =>
      intro s rows0 hf hc hw
      have hstep := appendWrite_step s p ⟨c, rows0, .unlimited, dt⟩ a hc rfl
        (hw a (by simp))
      have hdisp := write_process_arr s p ⟨c, rows0, .unlimited, dt⟩ a true hf
      have hproc : (mkDatasetWriteEvent p (.arr (.twoD a)) true).process s =
          ({ s with file := s.file.set p (.dset ⟨c, rows0 ++ a, .unlimited, dt⟩),
                    dataset_write_pos := setCursor s.dataset_write_pos p
                      (rows0.length + a.length),
                    flushes := s.flushes + 1 }, none) := by
        rw [hdisp, if_pos rfl]
        exact hstep
      obtain ⟨s1, h1, h2, h3⟩ := ih
        ({ s with file := s.file.set p (.dset ⟨c, rows0 ++ a, .unlimited, dt⟩),
                  dataset_write_pos := setCursor s.dataset_write_pos p
                    (rows0.length + a.length),
                  flushes := s.flushes + 1 })
        (rows0 ++ a)
        (by simp [H5File.get_set_self])
        (by simp [lookupCursor_setCursor_self])
        (fun x hx => hw x (List.mem_cons_of_mem _ hx))
      refine ⟨s1, ?_, ?_, ?_⟩
      · simp only [processWrites, hproc]
        exact h1
      · simpa [List.append_assoc] using h2
      · simpa [List.append_assoc] using h3

/-- C1 counterexample: a dataset created with initial leading length 5
receives one append of leading length 1; the claim predicts final
leading length 5 + 1 = 6, but processing leaves leading length 1 (the
cursor starts at 0 and the resize is unconditional). -/
theorem C1_counterexample :
    leadExtent ((mkDatasetWriteEvent ("/d") (.arr (.twoD [[7]])) true).process
        ⟨[(("/d"), .dset ⟨1, [[0], [0], [0], [0], [0]], .unlimited, ("f8")⟩)],
          [], 0, false⟩).1 ("/d") = 1 ∧ (1 : Nat) ≠ 5 + 1 := by
  exact ⟨rfl, by decide⟩

/-- C1 (amended): for a dataset with any initial leading length L0 and
an absent cursor, processing one or more append writes with payload
leading lengths len_1..len_N in arrival order yields final leading
length equal to the sum of the len_i — the running cursor starts at 0
and the L0 initial rows are discarded by the first unconditional resize
— and for each i the payload occupies rows from the prefix sum of the
preceding lengths onward, the final cursor being the total. -/
theorem C1_append_prefix_sums (s : ServerState) (p dt : String) (c : Nat)
    (rows0 : List (List Int)) (a : List (List Int)) (rest : List (List (List Int)))
    (hf : s.file.get p = some (.dset ⟨c, rows0, .unlimited, dt⟩))
    (hc : lookupCursor s.dataset_write_pos p = none)
    (hw : ∀ x ∈ a :: rest, ∀ r ∈ x, r.length = c) :
    ∃ s1, processWrites p (a :: rest) s = (s1, none) ∧
      s1.file.get p = some (.dset ⟨c, (a :: rest).flatten, .unlimited, dt⟩) ∧
      lookupCursor s1.dataset_write_pos p = some ((a :: rest).flatten.length) ∧
      (a :: rest).flatten.length = ((a :: rest).map List.length).sum ∧
      ∀ (i : Nat) (h : i < (a :: rest).length),
        (((a :: rest).flatten.drop ((((a :: rest).take i).map List.length).sum)).take
            ((a :: rest).get ⟨i, h⟩).length) = (a :: rest).get ⟨i, h⟩ := by
  have hfirst := appendWrite_first s p ⟨c, rows0, .unlimited, dt⟩ a hc rfl (hw a (by simp))
  have hdisp := write_process_arr s p ⟨c, rows0, .unlimited, dt⟩ a true hf
  have hproc : (mkDatasetWriteEvent p (.arr (.twoD a)) true).process s =
      ({ s with file := s.file.set p (.dset ⟨c, a, .unlimited, dt⟩),
                dataset_write_pos := setCursor s.dataset_write_pos p a.length,
                flushes := s.flushes + 1 }, none) := by
    rw [hdisp, if_pos rfl]
    exact hfirst
  obtain ⟨s1, h1, h2, h3⟩ := processWrites_inv p dt c rest
    ({ s with file := s.file.set p (.dset ⟨c, a, .unlimited, dt⟩),
              dataset_write_pos := setCursor s.dataset_write_pos p a.length,
              flushes := s.flushes + 1 })
    a
    (by simp [H5File.get_set_self])
    (by simp [lookupCursor_setCursor_self])
    (fun x hx => hw x (List.mem_cons_of_mem _ hx))
  refine ⟨s1, ?_, ?_, ?_, ?_, ?_⟩
  · simp only [processWrites, hproc]
    exact h1
  · simpa [List.flatten_cons] using h2
  · simpa [List.flatten_cons] using h3
  · simp [List.length_flatten]
  · exact flatten_slice (a :: rest)

/-- C1 witness: a dataset of initial leading length 2 and width 3, two
append writes of leading lengths 1 and 2; the conclusion of the amended
claim holds at these inputs. -/
theorem C1_witness :
    ∃ s1, processWrites ("/x") [[[1, 2, 3]], [[4, 5, 6], [7, 8, 9]]]
        ⟨[(("/x"), .dset ⟨3, [[9, 9, 9], [8, 8, 8]], .unlimited, ("f8")⟩)],
          [], 0, false⟩ = (s1, none) ∧
      s1.file.get ("/x") = some (.dset
        ⟨3, [[1, 2, 3], [4, 5, 6], [7, 8, 9]], .unlimited, ("f8")⟩) ∧
      lookupCursor s1.dataset_write_pos ("/x") = some 3 := by
  obtain ⟨s1, h1, h2, h3, _, _⟩ := C1_append_prefix_sums
    ⟨[(("/x"), .dset ⟨3, [[9, 9, 9], [8, 8, 8]], .unlimited, ("f8")⟩)], [], 0, false⟩
    ("/x") ("f8") 3 [[9, 9, 9], [8, 8, 8]] [[1, 2, 3]]
    [[[4, 5, 6], [7, 8, 9]]] (by decide) (by decide) (by decide)
  exact ⟨s1, h1, by simpa using h2, by simpa using h3⟩

/-- Dispatch of a 1-D array write event on an existing dataset: the
constructor has promoted the payload to a single row. -/
theorem write_process_arr1 (s : ServerState) (p : String) (d : Dataset)
    (xs : List Int) (ap : Bool)
    (hf : s.file.get p = some (.dset d)) :
    (mkDatasetWriteEvent p (.arr (.oneD xs)) ap).process s =
      if ap then appendWrite s p d [xs] else overwriteWrite s p d [xs] := by
  cases ap <;>
    simp [mkDatasetWriteEvent, atleast_2d, DatasetWriteEvent.process, hf]

/-- C2 counterexample: a dataset of leading extent 2 with no cursor
entry receives an append of one row; the resize is unconditional, so
the extent drops from 2 to 1, refuting that append never decreases the
extent. -/
theorem C2_counterexample :
    leadExtent ⟨[(("/d"), .dset ⟨1, [[0], [0]], .unlimited, ("f8")⟩)], [], 0, false⟩
        ("/d") = 2 ∧
    leadExtent ((mkDatasetWriteEvent ("/d") (.arr (.twoD [[5]])) true).process
        ⟨[(("/d"), .dset ⟨1, [[0], [0]], .unlimited, ("f8")⟩)], [], 0, false⟩).1
        ("/d") = 1 ∧
    ¬ (2 : Nat) ≤ 1 :=
  ⟨rfl, rfl, by decide⟩

/-- C2 (amended): the append path resizes the leading dimension to
cursor + payload row count unconditionally; whenever the stored cursor
is at least the current extent — the invariant re-established by every
successful append — the extent does not decrease, and it equals cursor
plus payload row count afterwards.  Only a first append to a dataset
whose initial extent exceeds 0 can shrink it. -/
theorem C2_append_extent (s : ServerState) (p : String) (d : Dataset)
    (rows : List (List Int)) (w : Nat)
    (hf : s.file.get p = some (.dset d))
    (hc : lookupCursor s.dataset_write_pos p = some w)
    (hge : d.rows.length ≤ w)
    (hmax : d.maxRows = .unlimited)
    (hw : ∀ r ∈ rows, r.length = d.ncols) :
    ∃ s1, (mkDatasetWriteEvent p (.arr (.twoD rows)) true).process s = (s1, none) ∧
      leadExtent s1 p = w + rows.length ∧
      leadExtent s p ≤ leadExtent s1 p := by
  obtain ⟨d2, heq, hlen, _, _, _, _⟩ := appendWrite_ok s p d rows w hc hmax hw
  have hdisp := write_process_arr s p d rows true hf
  rw [if_pos rfl, heq] at hdisp
  refine ⟨_, hdisp, ?_, ?_⟩
  · simp [leadExtent, H5File.get_set_self, hlen]
  · simp [leadExtent, hf, H5File.get_set_self, hlen]
    omega

/-- C2 witness: cursor 1 equals the extent 1; appending one row grows
the extent to 2. -/
theorem C2_witness :
    ∃ s1, (mkDatasetWriteEvent ("/d") (.arr (.twoD [[7]])) true).process
        ⟨[(("/d"), .dset ⟨1, [[3]], .unlimited, ("f8")⟩)], [(("/d"), 1)], 0, false⟩ =
        (s1, none) ∧
      leadExtent s1 ("/d") = 1 + 1 ∧
      leadExtent ⟨[(("/d"), .dset ⟨1, [[3]], .unlimited, ("f8")⟩)],
        [(("/d"), 1)], 0, false⟩ ("/d") ≤ leadExtent s1 ("/d") := by
  have h := C2_append_extent
    ⟨[(("/d"), .dset ⟨1, [[3]], .unlimited, ("f8")⟩)], [(("/d"), 1)], 0, false⟩
    ("/d") ⟨1, [[3]], .unlimited, ("f8")⟩ [[7]] 1
    (by decide) (by decide) (by decide) (by decide) (by decide)
  simpa using h

/-- C4: a non-append array write on an existing dataset raises a shape
mismatch and leaves the whole server state unchanged when the payload
shape differs from the dataset shape, and overwrites the contents in
place (with a flush) when the shapes are exactly equal. -/
theorem C4_nonappend_shape_check (s : ServerState) (p : String) (d : Dataset)
    (rows : List (List Int))
    (hf : s.file.get p = some (.dset d)) :
    (¬ (d.rows.length = rows.length ∧ d.ncols = arrCols rows) →
      (mkDatasetWriteEvent p (.arr (.twoD rows)) false).process s =
        (s, some .shapeMismatch)) ∧
    ((d.rows.length = rows.length ∧ d.ncols = arrCols rows) →
      (mkDatasetWriteEvent p (.arr (.twoD rows)) false).process s =
        ({ s with file := s.file.set p (.dset { d with rows := rows }),
                  flushes := s.flushes + 1 }, none)) := by
  have hdisp := write_process_arr s p d rows false hf
  rw [if_neg (by simp)] at hdisp
  constructor
  · intro h
    rw [hdisp]
    unfold overwriteWrite
    rw [if_neg h]
  · intro h
    rw [hdisp]
    unfold overwriteWrite
    rw [if_pos h]

/-- C4 witness: a 1 x 2 dataset rejects a 2 x 2 non-append payload with
the state unchanged, and accepts a 1 x 2 payload by overwriting. -/
theorem C4_witness :
    (mkDatasetWriteEvent ("/d") (.arr (.twoD [[3, 4], [5, 6]])) false).process
        ⟨[(("/d"), .dset ⟨2, [[1, 2]], .unlimited, ("f8")⟩)], [], 0, false⟩ =
      (⟨[(("/d"), .dset ⟨2, [[1, 2]], .unlimited, ("f8")⟩)], [], 0, false⟩,
        some .shapeMismatch) ∧
    (mkDatasetWriteEvent ("/d") (.arr (.twoD [[9, 9]])) false).process
        ⟨[(("/d"), .dset ⟨2, [[1, 2]], .unlimited, ("f8")⟩)], [], 0, false⟩ =
      (⟨[(("/d"), .dset ⟨2, [[9, 9]], .unlimited, ("f8")⟩)], [], 1, false⟩, none) := by
  constructor
  · exact (C4_nonappend_shape_check
      ⟨[(("/d"), .dset ⟨2, [[1, 2]], .unlimited, ("f8")⟩)], [], 0, false⟩
      ("/d") ⟨2, [[1, 2]], .unlimited, ("f8")⟩ [[3, 4], [5, 6]] (by decide)).1
      (by decide)
  · have h := (C4_nonappend_shape_check
      ⟨[(("/d"), .dset ⟨2, [[1, 2]], .unlimited, ("f8")⟩)], [], 0, false⟩
      ("/d") ⟨2, [[1, 2]], .unlimited, ("f8")⟩ [[9, 9]] (by decide)).2
      (by decide)
    simpa [H5File.set] using h

/-- C5: creating a dataset at a free path succeeds, leaves exactly one
dataset at the path, and a second identical create event is a no-op on
the resulting state. -/
theorem C5_create_idempotent (s : ServerState) (e : DatasetCreateEvent)
    (h : s.file.get e.params.name = none) :
    ∃ s1, e.process s = (s1, none) ∧
      s1.file.get e.params.name = some (.dset e.params.newDataset) ∧
      s1.file.countP (fun x => x.1 = e.params.name) = 1 ∧
      e.process s1 = (s1, none) := by
  have hreq : require_dataset s.file e.params =
      .ok (s.file.set e.params.name (.dset e.params.newDataset)) := by
    unfold require_dataset
    rw [h]
  refine ⟨{ s with file := s.file.set e.params.name (.dset e.params.newDataset) },
    ?_, ?_, ?_, ?_⟩
  · unfold DatasetCreateEvent.process
    rw [hreq]
  · simp [H5File.get_set_self]
  · exact countP_set_of_get_none _ _ _ h
  · have hget := H5File.get_set_self s.file e.params.name (.dset e.params.newDataset)
    have hcond : e.params.newDataset.rows.length = e.params.shape0 ∧
        e.params.newDataset.ncols = e.params.ncols ∧
        e.params.newDataset.dtype = e.params.dtype := by
      simp [CreateParams.newDataset]
    simp only [DatasetCreateEvent.process, require_dataset, hget, if_pos hcond]

/-- C5 witness: two identical creates at a fresh path. -/
theorem C5_witness :
    ∃ s1, (DatasetCreateEvent.mk ⟨("/w"), 2, 3, ("f8"), .unlimited⟩).process initState =
        (s1, none) ∧
      s1.file.get ("/w") = some (.dset
        (CreateParams.newDataset ⟨("/w"), 2, 3, ("f8"), .unlimited⟩)) ∧
      s1.file.countP (fun x => x.1 = ("/w")) = 1 ∧
      (DatasetCreateEvent.mk ⟨("/w"), 2, 3, ("f8"), .unlimited⟩).process s1 =
        (s1, none) :=
  C5_create_idempotent initState ⟨⟨("/w"), 2, 3, ("f8"), .unlimited⟩⟩ rfl

/-- C9: the write event constructor promotes a 1-D payload of length n
to a single row of width n, so a successful append adds exactly one row
and advances the cursor by 1. -/
theorem C9_oneD_promotion (s : ServerState) (p : String) (d : Dataset)
    (xs : List Int) (w : Nat)
    (hf : s.file.get p = some (.dset d))
    (hn : xs.length = d.ncols)
    (hmax : d.maxRows = .unlimited)
    (hc : lookupCursor s.dataset_write_pos p = some w) :
    (mkDatasetWriteEvent p (.arr (.oneD xs)) true).obj = .arr [xs] ∧
    ∃ s1 d2, (mkDatasetWriteEvent p (.arr (.oneD xs)) true).process s = (s1, none) ∧
      lookupCursor s1.dataset_write_pos p = some (w + 1) ∧
      s1.file.get p = some (.dset d2) ∧
      d2.rows.length = w + 1 ∧
      d2.rows.drop w = [xs] := by
  obtain ⟨d2, heq, hlen, _, _, _, hdrop⟩ := appendWrite_ok s p d [xs] w hc hmax
    (by simp [hn])
  have hdisp := write_process_arr1 s p d xs true hf
  rw [if_pos rfl, heq] at hdisp
  refine ⟨rfl, _, d2, hdisp, ?_, ?_, ?_, hdrop⟩
  · simpa using lookupCursor_setCursor_self s.dataset_write_pos p (w + [xs].length)
  · simp [H5File.get_set_self]
  · simpa using hlen

/-- C9 witness: a width-2 dataset at cursor 1 receives a 1-D payload of
length 2; exactly one row is appended and the cursor moves to 2. -/
theorem C9_witness :
    (mkDatasetWriteEvent ("/d") (.arr (.oneD [4, 5])) true).obj = .arr [[4, 5]] ∧
    ∃ s1 d2, (mkDatasetWriteEvent ("/d") (.arr (.oneD [4, 5])) true).process
        ⟨[(("/d"), .dset ⟨2, [[0, 0]], .unlimited, ("f8")⟩)], [(("/d"), 1)], 0, false⟩ =
        (s1, none) ∧
      lookupCursor s1.dataset_write_pos ("/d") = some (1 + 1) ∧
      s1.file.get ("/d") = some (.dset d2) ∧
      d2.rows.length = 1 + 1 ∧
      d2.rows.drop 1 = [[4, 5]] :=
  C9_oneD_promotion
    ⟨[(("/d"), .dset ⟨2, [[0, 0]], .unlimited, ("f8")⟩)], [(("/d"), 1)], 0, false⟩
    ("/d") ⟨2, [[0, 0]], .unlimited, ("f8")⟩ [4, 5] 1
    (by decide) (by decide) (by decide) (by decide)

/-- C3 counterexample: the mapping from the claim contains the plain
Python int 1 under key a; the saver has no branch for plain int, so
processing raises naming the kind int and writes no leaf at all — the
claim asserts the write succeeds. -/
theorem C3_counterexample :
    (mkDatasetWriteEvent ("/p/") (.dict
        [(("a"), .vInt 1),
         (("b"), .vDict [(("c"), .vStr ("text")),
                         (("d"), .vList [.numItem 1, .numItem 2, .numItem 3])])])
        true).process initState =
      (initState, some (.cannotSave ("int"))) := rfl

/-- C3 (amended): with the plain int 1 the write raises a fatal error
naming the kind int and produces no leaves; with the number given as
np.int64 1 the write succeeds and produces exactly the leaves P/a = 1,
P/b/c = UTF-8 of the string text, and P/b/d = [1, 2, 3] as a numeric
array — the list under key d lies below b, not directly below P. -/
theorem C3_mapping_leaves :
    ((mkDatasetWriteEvent ("/p/") (.dict
        [(("a"), .vInt 1),
         (("b"), .vDict [(("c"), .vStr ("text")),
                         (("d"), .vList [.numItem 1, .numItem 2, .numItem 3])])])
        true).process initState =
      (initState, some (.cannotSave ("int")))) ∧
    ((mkDatasetWriteEvent ("/p/") (.dict
        [(("a"), .vNpInt 1),
         (("b"), .vDict [(("c"), .vStr ("text")),
                         (("d"), .vList [.numItem 1, .numItem 2, .numItem 3])])])
        true).process initState =
      (⟨[(("/p/a"), .leafInt 1),
         (("/p/b/c"), .leafBytes (utf8 ("text"))),
         (("/p/b/d"), .leafArr [.num 1, .num 2, .num 3])], [], 1, false⟩, none)) :=
  ⟨rfl, rfl⟩

/-- A successful append write always performs a flush. -/
theorem appendWrite_flush (s : ServerState) (name : String) (d : Dataset)
    (rows : List (List Int)) :
    (appendWrite s name d rows).2 = none →
    (appendWrite s name d rows).1.flushes = s.flushes + 1 := by
  rcases hl : lookupCursor s.dataset_write_pos name with _ | w
  · simp only [appendWrite, hl]
    rcases hr : d.resize (0 + rows.length) with er | d1
    · simp [hr]
    · simp only [hr]
      by_cases hall : rows.all (fun r => decide (r.length = d.ncols)) = true
      · simp [hall]
      · simp [hall]
  · simp only [appendWrite, hl]
    rcases hr : d.resize (w + rows.length) with er | d1
    · simp [hr]
    · simp only [hr]
      by_cases hall : rows.all (fun r => decide (r.length = d.ncols)) = true
      · simp [hall]
      · simp [hall]

/-- A successful overwrite write always performs a flush. -/
theorem overwriteWrite_flush (s : ServerState) (name : String) (d : Dataset)
    (rows : List (List Int)) :
    (overwriteWrite s name d rows).2 = none →
    (overwriteWrite s name d rows).1.flushes = s.flushes + 1 := by
  unfold overwriteWrite
  split
  all_goals intro h
  all_goals simp_all

/-- C6 counterexample: processing a CreateDatasetEvent succeeds but the
flush count is unchanged — the file is not flushed after every processed
event, only after write events. -/
theorem C6_counterexample :
    ((DatasetCreateEvent.mk ⟨("/c"), 4, 2, ("f8"), .unlimited⟩).process
        initState).2 = none ∧
    ((DatasetCreateEvent.mk ⟨("/c"), 4, 2, ("f8"), .unlimited⟩).process
        initState).1.flushes = initState.flushes :=
  ⟨rfl, rfl⟩

/-- C6 (amended): the backend is flushed after every successfully
processed WriteRecordEvent, before any next event is dequeued; a
CreateDatasetEvent never flushes. -/
theorem C6_flush_policy :
    (∀ (e : DatasetWriteEvent) (s : ServerState), (e.process s).2 = none →
      (e.process s).1.flushes = s.flushes + 1) ∧
    (∀ (e : DatasetCreateEvent) (s : ServerState),
      (e.process s).1.flushes = s.flushes) := by
  constructor
  · intro e s hsucc
    rcases e with ⟨name, obj, ap⟩
    cases obj with
    | dict entries =>
        rcases hsave : recursively_save_dict_contents_to_group s.file name entries
          with ⟨f1, err⟩
        cases err <;> simp_all [DatasetWriteEvent.process, hsave]
    | arr rows =>
        cases hget : s.file.get name with
        | none => simp_all [DatasetWriteEvent.process, hget]
        | some o =>
            cases o
            case dset d =>
              cases ap
              · have h := overwriteWrite_flush s name d rows
                simp_all [DatasetWriteEvent.process, hget]
              · have h := appendWrite_flush s name d rows
                simp_all [DatasetWriteEvent.process, hget]
            all_goals cases ap <;> simp_all [DatasetWriteEvent.process, hget]
  · intro e s
    unfold DatasetCreateEvent.process
    cases hr : require_dataset s.file e.params <;> simp [hr]

/-- C6 witness: a successful mapping write bumps the flush count by one. -/
theorem C6_witness :
    ((mkDatasetWriteEvent ("/q/") (.dict [(("k"), .vStr ("v"))]) true).process
        initState).1.flushes = initState.flushes + 1 :=
  C6_flush_policy.1 (mkDatasetWriteEvent ("/q/") (.dict [(("k"), .vStr ("v"))]) true)
    initState rfl

/-- C7: a dequeued message that is neither the shutdown sentinel nor one
of the two defined event variants makes the loop raise and abort at
once: the outcome is a crash with the state exactly as it was, so no
further events are processed and no partial processing occurs. -/
theorem C7_unknown_message_fatal (m : Msg) (rest : List Msg) (s : ServerState)
    (h1 : m ≠ .sentinel) (h2 : ∀ e, m ≠ .createEvt e) (h3 : ∀ e, m ≠ .writeEvt e) :
    ∃ er, threadLoop (m :: rest) s = .crashed s er := by
  cases m with
  | sentinel => exact absurd rfl h1
  | createEvt e => exact absurd rfl (h2 e)
  | writeEvt e => exact absurd rfl (h3 e)
  | baseEvt => exact ⟨.notImplErr, rfl⟩
  | badObj => exact ⟨.badMessage, rfl⟩

/-- C7 witness: a non-event object crashes the loop immediately even
with further messages queued behind it. -/
theorem C7_witness :
    ∃ er, threadLoop [Msg.badObj, Msg.sentinel] initState =
      .crashed initState er :=
  C7_unknown_message_fatal .badObj [.sentinel] initState
    (fun hh => Msg.noConfusion hh) (fun _ hh => Msg.noConfusion hh)
    (fun _ hh => Msg.noConfusion hh)

/-- True when a message is an append-mode array write event targeting
the given path — the only kind of message whose processing can create a
cursor entry for that path. -/
def targetsAppendCursor (m : Msg) (p : String) : Bool :=
  match m with
  | .writeEvt e =>
      (decide (e.dataset_name = p)) && e.append &&
        (match e.obj with
         | .arr _ => true
         | .dict _ => false)
  | _ => false

/-- An append write never changes the cursor of a different path. -/
theorem appendWrite_pos_other (s : ServerState) (name : String) (d : Dataset)
    (rows : List (List Int)) (q : String) (hq : q ≠ name) :
    lookupCursor (appendWrite s name d rows).1.dataset_write_pos q =
      lookupCursor s.dataset_write_pos q := by
  rcases hl : lookupCursor s.dataset_write_pos name with _ | w
  · simp only [appendWrite, hl]
    rcases hr : d.resize (0 + rows.length) with er | d1
    · simp [hr, lookupCursor_setCursor_ne _ _ _ _ hq]
    · by_cases hall : rows.all (fun r => decide (r.length = d.ncols)) = true
      · simp [hr, hall, lookupCursor_setCursor_ne _ _ _ _ hq]
      · simp [hr, hall, lookupCursor_setCursor_ne _ _ _ _ hq]
  · simp only [appendWrite, hl]
    rcases hr : d.resize (w + rows.length) with er | d1
    · simp [hr]
    · by_cases hall : rows.all (fun r => decide (r.length = d.ncols)) = true
      · simp [hr, hall, lookupCursor_setCursor_ne _ _ _ _ hq]
      · simp [hr, hall]

/-- An append write to a path with an existing cursor leaves a cursor at
least as large. -/
theorem appendWrite_pos_target (s : ServerState) (name : String) (d : Dataset)
    (rows : List (List Int)) (w : Nat)
    (hc : lookupCursor s.dataset_write_pos name = some w) :
    ∃ v2, lookupCursor (appendWrite s name d rows).1.dataset_write_pos name =
      some v2 ∧ w ≤ v2 := by
  simp only [appendWrite, hc]
  rcases hr : d.resize (w + rows.length) with er | d1
  · exact ⟨w, by simp [hc], le_rfl⟩
  · obtain ⟨hlen, _, _, _⟩ := Dataset.resize_ok d _ d1 hr
    by_cases hall : rows.all (fun r => decide (r.length = d.ncols)) = true
    · refine ⟨(d1.rows.take w ++ rows).length, ?_, ?_⟩
      · simp [hall, lookupCursor_setCursor_self]
      · simp only [List.length_append, List.length_take, hlen]
        omega
    · exact ⟨w, by simp [hall, hc], le_rfl⟩

/-- A write event whose object is a mapping, or whose append flag is
false, never changes the cursor table. -/
theorem write_process_pos_keep (e : DatasetWriteEvent) (s : ServerState)
    (h : e.append = false ∨ ∀ rows, e.obj ≠ WriteObj.arr rows) :
    (e.process s).1.dataset_write_pos = s.dataset_write_pos := by
  rcases e with ⟨name, obj, ap⟩
  cases obj with
  | dict entries =>
      rcases hsave : recursively_save_dict_contents_to_group s.file name entries
        with ⟨f1, err⟩
      cases err <;> simp [DatasetWriteEvent.process, hsave]
  | arr rows =>
      have hap : ap = false := by
        rcases h with h | h
        · exact h
        · exact absurd rfl (h rows)
      subst hap
      cases hget : s.file.get name with
      | none => simp [DatasetWriteEvent.process, hget]
      | some o =>
          cases o
          case dset d =>
            simp only [DatasetWriteEvent.process, hget, Bool.false_eq_true,
              if_false]
            unfold overwriteWrite
            split <;> rfl
          all_goals simp [DatasetWriteEvent.process, hget]

/-- A write event never changes the cursor stored for a path other than
its target. -/
theorem write_process_pos_other (e : DatasetWriteEvent) (s : ServerState)
    (q : String) (hq : q ≠ e.dataset_name) :
    lookupCursor (e.process s).1.dataset_write_pos q =
      lookupCursor s.dataset_write_pos q := by
  rcases e with ⟨name, obj, ap⟩
  simp only at hq
  cases obj with
  | dict entries =>
      rcases hsave : recursively_save_dict_contents_to_group s.file name entries
        with ⟨f1, err⟩
      cases err <;> simp [DatasetWriteEvent.process, hsave]
  | arr rows =>
      cases hget : s.file.get name with
      | none => simp [DatasetWriteEvent.process, hget]
      | some o =>
          cases o
          case dset d =>
            cases ap
            · simp only [DatasetWriteEvent.process, hget, Bool.false_eq_true,
                if_false]
              unfold overwriteWrite
              split <;> rfl
            · simp only [DatasetWriteEvent.process, hget, if_pos rfl]
              exact appendWrite_pos_other s name d rows q hq
          all_goals
            cases ap
            all_goals
              rcases hl : lookupCursor s.dataset_write_pos name with _ | w <;>
                simp [DatasetWriteEvent.process, hget, hl,
                  lookupCursor_setCursor_ne _ _ _ _ hq]

/-- A write event can only keep or increase the cursor stored for its
target path. -/
theorem write_process_pos_target (e : DatasetWriteEvent) (s : ServerState)
    (v : Nat)
    (hv : lookupCursor s.dataset_write_pos e.dataset_name = some v) :
    ∃ v2, lookupCursor (e.process s).1.dataset_write_pos e.dataset_name =
      some v2 ∧ v ≤ v2 := by
  rcases e with ⟨name, obj, ap⟩
  simp only at hv
  cases obj with
  | dict entries =>
      rcases hsave : recursively_save_dict_contents_to_group s.file name entries
        with ⟨f1, err⟩
      refine ⟨v, ?_, le_rfl⟩
      cases err <;> simp [DatasetWriteEvent.process, hsave, hv]
  | arr rows =>
      cases hget : s.file.get name with
      | none => exact ⟨v, by simp [DatasetWriteEvent.process, hget, hv], le_rfl⟩
      | some o =>
          cases o
          case dset d =>
            cases ap
            · refine ⟨v, ?_, le_rfl⟩
              simp only [DatasetWriteEvent.process, hget, Bool.false_eq_true,
                if_false]
              unfold overwriteWrite
              split <;> simpa using hv
            · simp only [DatasetWriteEvent.process, hget, if_pos rfl]
              exact appendWrite_pos_target s name d rows v hv
          all_goals
            cases ap
            all_goals exact ⟨v, by simp [DatasetWriteEvent.process, hget, hv], le_rfl⟩

/-- A write event whose processing cannot create a cursor entry for a
path leaves an absent entry absent. -/
theorem write_process_pos_none (e : DatasetWriteEvent) (s : ServerState) (p : String)
    (hnone : lookupCursor s.dataset_write_pos p = none)
    (hnt : targetsAppendCursor (.writeEvt e) p = false) :
    lookupCursor (e.process s).1.dataset_write_pos p = none := by
  rcases e with ⟨name, obj, ap⟩
  cases obj with
  | dict entries =>
      rw [write_process_pos_keep ⟨name, .dict entries, ap⟩ s
        (Or.inr (fun rows h => WriteObj.noConfusion h))]
      exact hnone
  | arr rows =>
      cases ap
      · rw [write_process_pos_keep ⟨name, .arr rows, false⟩ s (Or.inl rfl)]
        exact hnone
      · have hne : ¬ (name = p) := by
          simpa [targetsAppendCursor] using hnt
        rw [write_process_pos_other ⟨name, .arr rows, true⟩ s p
          (fun hh => hne hh.symm)]
        exact hnone

/-- Creating a dataset touches only the file: cursor table, flush count
and closed flag are untouched. -/
theorem create_process_frame (e : DatasetCreateEvent) (s : ServerState) :
    (e.process s).1.dataset_write_pos = s.dataset_write_pos ∧
    (e.process s).1.flushes = s.flushes ∧
    (e.process s).1.closed = s.closed := by
  unfold DatasetCreateEvent.process
  cases hr : require_dataset s.file e.params <;> simp [hr]

/-- One server step keeps every present cursor and never decreases it. -/
theorem stepState_pos_mono (s : ServerState) (m : Msg) (p : String) (v : Nat)
    (hv : lookupCursor s.dataset_write_pos p = some v) :
    ∃ v2, lookupCursor (stepState s m).dataset_write_pos p = some v2 ∧ v ≤ v2 := by
  cases m with
  | sentinel => exact ⟨v, by simpa [stepState, finalize_storage] using hv, le_rfl⟩
  | createEvt e =>
      refine ⟨v, ?_, le_rfl⟩
      simp only [stepState]
      rw [(create_process_frame e s).1]
      exact hv
  | writeEvt e =>
      by_cases hq : p = e.dataset_name
      · subst hq
        exact write_process_pos_target e s v hv
      · refine ⟨v, ?_, le_rfl⟩
        simp only [stepState]
        rw [write_process_pos_other e s p hq]
        exact hv
  | baseEvt => exact ⟨v, hv, le_rfl⟩
  | badObj => exact ⟨v, hv, le_rfl⟩

/-- Across any run of server steps, a present cursor stays present and
never decreases. -/
theorem foldl_pos_mono (msgs : List Msg) : ∀ (s : ServerState) (p : String) (v : Nat),
    lookupCursor s.dataset_write_pos p = some v →
    ∃ v2, lookupCursor ((msgs.foldl stepState s)).dataset_write_pos p = some v2 ∧
      v ≤ v2 := by
  induction msgs with
  | nil => exact fun s p v hv => ⟨v, hv, le_rfl⟩
  | cons m rest ih =>
      intro s p v hv
      obtain ⟨v1, h1, hle1⟩ := stepState_pos_mono s m p v hv
      obtain ⟨v2, h2, hle2⟩ := ih (stepState s m) p v1 h1
      exact ⟨v2, h2, le_trans hle1 hle2⟩

/-- C8: the write-cursor table is empty when storage is opened; an
entry for a path can only come into existence through an append-mode
array write targeting that path; and every stored cursor is
monotonically non-decreasing, both across a single processed message
and across any whole run of messages.  Cursor values live in Nat, so
non-negativity holds by construction. -/
theorem C8_cursor_table_invariants :
    initState.dataset_write_pos = [] ∧
    (∀ (s : ServerState) (m : Msg) (p : String),
      lookupCursor s.dataset_write_pos p = none →
      targetsAppendCursor m p = false →
      lookupCursor (stepState s m).dataset_write_pos p = none) ∧
    (∀ (s : ServerState) (m : Msg) (p : String) (v : Nat),
      lookupCursor s.dataset_write_pos p = some v →
      ∃ v2, lookupCursor (stepState s m).dataset_write_pos p = some v2 ∧ v ≤ v2) ∧
    (∀ (msgs : List Msg) (s : ServerState) (p : String) (v : Nat),
      lookupCursor s.dataset_write_pos p = some v →
      ∃ v2, lookupCursor ((msgs.foldl stepState s)).dataset_write_pos p = some v2 ∧
        v ≤ v2) := by
  refine ⟨rfl, ?_, fun s m p v hv => stepState_pos_mono s m p v hv,
    fun msgs s p v hv => foldl_pos_mono msgs s p v hv⟩
  intro s m p hnone hnt
  cases m with
  | sentinel => simpa [stepState, finalize_storage] using hnone
  | createEvt e =>
      simp only [stepState]
      rw [(create_process_frame e s).1]
      exact hnone
  | writeEvt e => exact write_process_pos_none e s p hnone hnt
  | baseEvt => exact hnone
  | badObj => exact hnone

/-- C8 witness: a state holding cursor 2 for a path keeps a cursor of
at least 2 there across a run containing a create event and the
sentinel. -/
theorem C8_witness :
    initState.dataset_write_pos = [] ∧
    ∃ v2, lookupCursor ((([Msg.createEvt ⟨⟨("/y"), 1, 1, ("f8"), .unlimited⟩⟩,
        Msg.sentinel]).foldl stepState
        ⟨[], [(("/d"), 2)], 0, false⟩)).dataset_write_pos ("/d") = some v2 ∧
      2 ≤ v2 :=
  ⟨C8_cursor_table_invariants.1,
    C8_cursor_table_invariants.2.2.2
      [Msg.createEvt ⟨⟨("/y"), 1, 1, ("f8"), .unlimited⟩⟩, Msg.sentinel]
      ⟨[], [(("/d"), 2)], 0, false⟩ ("/d") 2 (by decide)⟩

/-- An append write never changes the closed flag. -/
theorem appendWrite_closed (s : ServerState) (name : String) (d : Dataset)
    (rows : List (List Int)) :
    (appendWrite s name d rows).1.closed = s.closed := by
  rcases hl : lookupCursor s.dataset_write_pos name with _ | w
  · simp only [appendWrite, hl]
    rcases hr : d.resize (0 + rows.length) with er | d1
    · simp [hr]
    · by_cases hall : rows.all (fun r => decide (r.length = d.ncols)) = true <;>
        simp [hr, hall]
  · simp only [appendWrite, hl]
    rcases hr : d.resize (w + rows.length) with er | d1
    · simp [hr]
    · by_cases hall : rows.all (fun r => decide (r.length = d.ncols)) = true <;>
        simp [hr, hall]

/-- Processing a write event never changes the closed flag. -/
theorem write_process_closed (e : DatasetWriteEvent) (s : ServerState) :
    (e.process s).1.closed = s.closed := by
  rcases e with ⟨name, obj, ap⟩
  cases obj with
  | dict entries =>
      rcases hsave : recursively_save_dict_contents_to_group s.file name entries
        with ⟨f1, err⟩
      cases err <;> simp [DatasetWriteEvent.process, hsave]
  | arr rows =>
      cases hget : s.file.get name with
      | none => simp [DatasetWriteEvent.process, hget]
      | some o =>
          cases o
          case dset d =>
            cases ap
            · simp only [DatasetWriteEvent.process, hget, Bool.false_eq_true,
                if_false]
              unfold overwriteWrite
              split <;> rfl
            · simp only [DatasetWriteEvent.process, hget, if_pos rfl]
              exact appendWrite_closed s name d rows
          all_goals
            cases ap
            all_goals
              rcases hl : lookupCursor s.dataset_write_pos name with _ | w <;>
                simp [DatasetWriteEvent.process, hget, hl]

/-- The loop preserves the closed flag up to any crash or block, and
sets it exactly when a sentinel ends the loop. -/
theorem threadLoop_closed (msgs : List Msg) : ∀ (s : ServerState),
    (∀ s1 er, threadLoop msgs s = .crashed s1 er → s1.closed = s.closed) ∧
    (∀ s1, threadLoop msgs s = .pending s1 → s1.closed = s.closed) ∧
    (∀ s1, threadLoop msgs s = .finished s1 →
      s1.closed = true ∧ Msg.sentinel ∈ msgs) := by
  induction msgs with
  | nil =>
      intro s
      refine ⟨?_, ?_, ?_⟩
      · intro s1 er h
        simp [threadLoop] at h
      · intro s1 h
        simp [threadLoop] at h
        rw [← h]
      · intro s1 h
        simp [threadLoop] at h
  | cons m rest ih =>
      intro s
      cases m with
      | sentinel =>
          refine ⟨?_, ?_, ?_⟩
          · intro s1 er h
            simp [threadLoop] at h
          · intro s1 h
            simp [threadLoop] at h
          · intro s1 h
            simp [threadLoop] at h
            exact ⟨by rw [← h]; rfl, by simp⟩
      | createEvt e =>
          rcases hp : e.process s with ⟨s2, err2⟩
          have hc2 : s2.closed = s.closed := by
            have hfr := (create_process_frame e s).2.2
            rw [hp] at hfr
            exact hfr
          cases err2 with
          | none =>
              have hloop : threadLoop (Msg.createEvt e :: rest) s =
                  threadLoop rest s2 := by
                simp [threadLoop, hp]
              obtain ⟨ha, hb, hfin⟩ := ih s2
              refine ⟨?_, ?_, ?_⟩
              · intro s1 er h
                rw [hloop] at h
                rw [ha s1 er h, hc2]
              · intro s1 h
                rw [hloop] at h
                rw [hb s1 h, hc2]
              · intro s1 h
                rw [hloop] at h
                obtain ⟨h1, h2⟩ := hfin s1 h
                exact ⟨h1, List.mem_cons_of_mem _ h2⟩
          | some er2 =>
              have hloop : threadLoop (Msg.createEvt e :: rest) s =
                  .crashed s2 er2 := by
                simp [threadLoop, hp]
              refine ⟨?_, ?_, ?_⟩
              · intro s1 er h
                rw [hloop] at h
                simp at h
                rw [← h.1, hc2]
              · intro s1 h
                rw [hloop] at h
                simp at h
              · intro s1 h
                rw [hloop] at h
                simp at h
      | writeEvt e =>
          rcases hp : e.process s with ⟨s2, err2⟩
          have hc2 : s2.closed = s.closed := by
            have hfr := write_process_closed e s
            rw [hp] at hfr
            exact hfr
          cases err2 with
          | none =>
              have hloop : threadLoop (Msg.writeEvt e :: rest) s =
                  threadLoop rest s2 := by
                simp [threadLoop, hp]
              obtain ⟨ha, hb, hfin⟩ := ih s2
              refine ⟨?_, ?_, ?_⟩
              · intro s1 er h
                rw [hloop] at h
                rw [ha s1 er h, hc2]
              · intro s1 h
                rw [hloop] at h
                rw [hb s1 h, hc2]
              · intro s1 h
                rw [hloop] at h
                obtain ⟨h1, h2⟩ := hfin s1 h
                exact ⟨h1, List.mem_cons_of_mem _ h2⟩
          | some er2 =>
              have hloop : threadLoop (Msg.writeEvt e :: rest) s =
                  .crashed s2 er2 := by
                simp [threadLoop, hp]
              refine ⟨?_, ?_, ?_⟩
              · intro s1 er h
                rw [hloop] at h
                simp at h
                rw [← h.1, hc2]
              · intro s1 h
                rw [hloop] at h
                simp at h
              · intro s1 h
                rw [hloop] at h
                simp at h
      | baseEvt =>
          refine ⟨?_, ?_, ?_⟩
          · intro s1 er h
            simp [threadLoop] at h
            rw [← h.1]
          · intro s1 h
            simp [threadLoop] at h
          · intro s1 h
            simp [threadLoop] at h
      | badObj =>
          refine ⟨?_, ?_, ?_⟩
          · intro s1 er h
            simp [threadLoop] at h
            rw [← h.1]
          · intro s1 h
            simp [threadLoop] at h
          · intro s1 h
            simp [threadLoop] at h

/-- C10: when processing any event raises, the loop ends in a crash
that leaves the closed flag exactly as it was — no final flush-and-
close runs, since finalization is the only operation that sets the
flag; the same holds while the loop is still blocked on the queue; the
flag is set — finalization having flushed and closed the file — exactly
when the loop ends through a shutdown sentinel, which must be present
in the processed messages. -/
theorem C10_crash_skips_finalize :
    (∀ (msgs : List Msg) (s s1 : ServerState) (er : LogErr),
      threadLoop msgs s = .crashed s1 er → s1.closed = s.closed) ∧
    (∀ (msgs : List Msg) (s s1 : ServerState),
      threadLoop msgs s = .pending s1 → s1.closed = s.closed) ∧
    (∀ (msgs : List Msg) (s s1 : ServerState),
      threadLoop msgs s = .finished s1 →
        s1.closed = true ∧ Msg.sentinel ∈ msgs) :=
  ⟨fun msgs s s1 er h => (threadLoop_closed msgs s).1 s1 er h,
   fun msgs s s1 h => (threadLoop_closed msgs s).2.1 s1 h,
   fun msgs s s1 h => (threadLoop_closed msgs s).2.2 s1 h⟩

/-- C10 witness: a write to a missing dataset crashes the loop with the
file still not closed, and a sentinel-terminated run closes it. -/
theorem C10_witness :
    initState.closed = initState.closed ∧
    ((finalize_storage initState).closed = true ∧
      Msg.sentinel ∈ [Msg.sentinel]) :=
  ⟨C10_crash_skips_finalize.1
      [Msg.writeEvt (mkDatasetWriteEvent ("/nope") (.arr (.oneD [1])) true),
        Msg.sentinel]
      initState initState (.keyError ("/nope")) rfl,
   C10_crash_skips_finalize.2.2 [Msg.sentinel] initState
      (finalize_storage initState) rfl⟩
